import Mathlib

/-!
Shallow embedding of the job-alert-agent pipeline (src/main.py and
src/scrapers/{greenhouse,lever,workday,ashby}.py).

Modelling conventions:
* Python `datetime` instants are modelled as `Int` milliseconds since the Unix
  epoch.  An aware datetime is a wall-clock value plus an explicit UTC-offset;
  a naive datetime has no offset.  Fractional seconds below one millisecond do
  not occur in the flows the claims touch and are not modelled.
* Python `str.lower` / `str.strip` / the regex `[A-Z]`, `\s` classes are
  modelled at the ASCII level (all keyword tables in the source are ASCII).
* A dictionary field is modelled as `Option _`: `Option.none` is an absent
  key, so `d.get(k)` is the `Option` value and `d.get(k, v)` / `x or ""` are
  `Option.getD`.  (Keys explicitly set to Python `None` by the scrapers are
  absent keys for the orchestrator's `.get` calls, which is the same state.)
* Network and store I/O is the environment: an adapter run is a function of
  the decoded wire payload, a fetch is an `Except` outcome supplied by the
  environment, and per-document store writes succeed or fail according to an
  environment function `writeOk`.
-/

namespace JobAlert

/-! ### Python string primitives (ASCII model) -/

/-- `str.lower` on one character (ASCII model). -/
def pyLowerChar (c : Char) : Char :=
  if 'A' ≤ c ∧ c ≤ 'Z' then Char.ofNat (c.toNat + 32) else c

/-- `str.lower` (ASCII model). -/
def pyLower (s : String) : String := String.mk (s.data.map pyLowerChar)

/-- Python whitespace, i.e. the `\s` class / `str.strip` default (ASCII). -/
def isPySpace (c : Char) : Bool :=
  c = ' ' || c = '\t' || c = '\n' || c = '\r' || c = '\x0b' || c = '\x0c'

/-- `str.strip()` on a character list. -/
def pyStripList (cs : List Char) : List Char :=
  ((cs.dropWhile isPySpace).reverse.dropWhile isPySpace).reverse

/-- `str.strip()`. -/
def pyStrip (s : String) : String := String.mk (pyStripList s.data)

/-- Does `hay` start with `needle`? -/
def listStarts : List Char → List Char → Bool
  | [], _ => true
  | _ :: _, [] => false
  | a :: as, b :: bs => a = b && listStarts as bs

/-- `needle in hay` for character lists (Python substring test). -/
def listIn (needle : List Char) : List Char → Bool
  | [] => needle.isEmpty
  | c :: rest => listStarts needle (c :: rest) || listIn needle rest

/-- Python's `needle in hay` on strings. -/
def strIn (needle hay : String) : Bool := listIn needle.data hay.data

/-- Python's `s.endswith(t)`. -/
def strEndsWith (s t : String) : Bool := listStarts t.data.reverse s.data.reverse

/-- Python's `s.startswith(t)`. -/
def strStartsWith (s t : String) : Bool := listStarts t.data s.data

/-- `s.replace("Z", "+00:00")` on a character list (replaces every `Z`). -/
def zToUtcList (cs : List Char) : List Char :=
  cs.foldr (fun c acc =>
    if c = 'Z' then '+' :: '0' :: '0' :: ':' :: '0' :: '0' :: acc else c :: acc) []

/-- UTF-8 encoding of one character (as `str.encode()` produces). -/
def utf8Char (c : Char) : List Nat :=
  let n := c.toNat
  if n < 0x80 then [n]
  else if n < 0x800 then [0xC0 + n / 64, 0x80 + n % 64]
  else if n < 0x10000 then [0xE0 + n / 4096, 0x80 + n / 64 % 64, 0x80 + n % 64]
  else [0xF0 + n / 0x40000, 0x80 + n / 4096 % 64, 0x80 + n / 64 % 64, 0x80 + n % 64]

/-- `str.encode()`: UTF-8 bytes of a string. -/
def utf8 (s : String) : List Nat := s.data.foldr (fun c acc => utf8Char c ++ acc) []

/-! ### Calendar arithmetic (model of `datetime` internals) -/

/-- Days from 1970-01-01 to year/month/day (proleptic Gregorian). -/
def daysFromCivil (y m d : Int) : Int :=
  let y' := if m ≤ 2 then y - 1 else y
  let era := Int.fdiv y' 400
  let yoe := y' - era * 400
  let doy := (153 * (m + (if 2 < m then -3 else 9)) + 2) / 5 + d - 1
  let doe := yoe * 365 + yoe / 4 - yoe / 100 + doy
  era * 146097 + doe - 719468

/-- Inverse of `daysFromCivil`: day count to (year, month, day). -/
def civilFromDays (z : Int) : Int × Int × Int :=
  let z' := z + 719468
  let era := Int.fdiv z' 146097
  let doe := z' - era * 146097
  let yoe := (doe - doe / 1460 + doe / 36524 - doe / 146096) / 365
  let y := yoe + era * 400
  let doy := doe - (365 * yoe + yoe / 4 - yoe / 100)
  let mp := (5 * doy + 2) / 153
  let d := doy - (153 * mp + 2) / 5 + 1
  let m := mp + (if mp < 10 then 3 else -9)
  (y + (if m ≤ 2 then 1 else 0), m, d)

/-- Wall-clock milliseconds since the epoch for a civil date-time. -/
def msOfCivil (y mo d h mi s : Int) : Int :=
  (daysFromCivil y mo d * 86400 + h * 3600 + mi * 60 + s) * 1000

/-- Is `y` a Gregorian leap year (`calendar`/`datetime` rule)? -/
def isLeapYear (y : Int) : Bool :=
  y % 4 = 0 && (y % 100 ≠ 0 || y % 400 = 0)

/-- Length of month `m` of year `y` (as `datetime` validates it). -/
def daysInMonth (y m : Int) : Int :=
  if m = 2 then (if isLeapYear y then 29 else 28)
  else if m = 4 || m = 6 || m = 9 || m = 11 then 30
  else 31

/-! ### `datetime.fromisoformat` (the subset the program exercises) -/

/-- Decimal digit value of a character. -/
def digitVal (c : Char) : Option Nat :=
  if '0' ≤ c ∧ c ≤ '9' then Option.some (c.toNat - 48) else Option.none

/-- Read exactly two decimal digits. -/
def read2 : List Char → Option (Nat × List Char)
  | a :: b :: rest =>
    match digitVal a, digitVal b with
    | Option.some x, Option.some y => Option.some (10 * x + y, rest)
    | _, _ => Option.none
  | _ => Option.none

/-- Read exactly four decimal digits. -/
def read4 (cs : List Char) : Option (Nat × List Char) :=
  match read2 cs with
  | Option.some (hi, rest) =>
    match read2 rest with
    | Option.some (lo, rest') => Option.some (100 * hi + lo, rest')
    | Option.none => Option.none
  | Option.none => Option.none

/-- Parse a `±HH:MM` UTC offset terminating the string; result in ms. -/
def parseOffset (sign : Char) (cs : List Char) : Option Int :=
  if sign = '+' || sign = '-' then
    match read2 cs with
    | Option.some (oh, r1) =>
      if oh ≤ 23 then
        match r1 with
        | ':' :: r2 =>
          match read2 r2 with
          | Option.some (om, r3) =>
            if om ≤ 59 ∧ r3 = [] then
              let ms : Int := (oh * 3600 + om * 60 : Nat) * 1000
              Option.some (if sign = '-' then -ms else ms)
            else Option.none
          | Option.none => Option.none
        | _ => Option.none
      else Option.none
    | Option.none => Option.none
  else Option.none

/-- Parse the `HH[:MM[:SS]][±HH:MM]` time portion; `(h, mi, s, offset)`. -/
def parseTime (cs : List Char) : Option (Nat × Nat × Nat × Option Int) :=
  let fin : Nat → Nat → Nat → List Char → Option (Nat × Nat × Nat × Option Int) :=
    fun h mi s rest =>
      match rest with
      | [] => Option.some (h, mi, s, Option.none)
      | sign :: r =>
        match parseOffset sign r with
        | Option.some off => Option.some (h, mi, s, Option.some off)
        | Option.none => Option.none
  match read2 cs with
  | Option.some (h, r1) =>
    if h ≤ 23 then
      match r1 with
      | ':' :: r2 =>
        match read2 r2 with
        | Option.some (mi, r3) =>
          if mi ≤ 59 then
            match r3 with
            | ':' :: r4 =>
              match read2 r4 with
              | Option.some (s, r5) => if s ≤ 59 then fin h mi s r5 else Option.none
              | Option.none => Option.none
            | _ => fin h mi 0 r3
          else Option.none
        | Option.none => Option.none
      | _ => fin h 0 0 r1
    else Option.none
  | Option.none => Option.none

/-- `datetime.fromisoformat` on `YYYY-MM-DD[<sep>HH[:MM[:SS]][±HH:MM]]`
    (the grammar the program feeds it); result is the wall-clock instant in
    ms plus the explicit UTC offset when one was present. -/
def fromisoformat (s : String) : Option (Int × Option Int) :=
  match s.data with
  | y1 :: y2 :: y3 :: y4 :: '-' :: m1 :: m2 :: '-' :: d1 :: d2 :: rest =>
    match read4 [y1, y2, y3, y4], read2 [m1, m2], read2 [d1, d2] with
    | Option.some (y, _), Option.some (mo, _), Option.some (d, _) =>
      if 1 ≤ y ∧ 1 ≤ mo ∧ mo ≤ 12 ∧ 1 ≤ d ∧ (d : Int) ≤ daysInMonth y mo then
        match rest with
        | [] => Option.some (msOfCivil y mo d 0 0 0, Option.none)
        | _ :: timecs =>
          match parseTime timecs with
          | Option.some (h, mi, sec, off) =>
            Option.some (msOfCivil y mo d h mi sec, off)
          | Option.none => Option.none
      else Option.none
    | _, _, _ => Option.none
  | _ => Option.none

/-! ### Timestamp values and `normalize_ts` (src/main.py) -/

/-- The value found under a job dict's `posted_at` key: absent / ISO string /
    `datetime` (wall-clock ms + optional UTC offset ms) / integer. -/
inductive PyTs where
  | none : PyTs
  | str (s : String) : PyTs
  | dt (wallMs : Int) (tzOffsetMs : Option Int) : PyTs
  | intVal (n : Int) : PyTs
deriving DecidableEq, Repr

/-- `main.normalize_ts`: convert a timestamp to a UTC instant (ms since the
    epoch), or `Option.none` for Python `None`.  A naive `datetime` gets UTC
    attached; an aware one is converted; an ISO string has a trailing `Z`
    replaced by `+00:00` and is handed to `fromisoformat`; anything else
    (including integers) returns `None`. -/
def normalize_ts : PyTs → Option Int
  | PyTs.none => Option.none
  | PyTs.dt wall tz => Option.some (wall - tz.getD 0)
  | PyTs.str ts =>
    let s := pyStrip ts
    let s := if strEndsWith s "Z" then String.mk (zToUtcList s.data) else s
    match fromisoformat s with
    | Option.some (wall, off) => Option.some (wall - off.getD 0)
    | Option.none => Option.none
  | PyTs.intVal _ => Option.none

/-! ### The job dictionary as the orchestrator reads it (src/main.py) -/

/-- A job dict as consumed by `main.job_matches` / `main.job_id`.
    `Option.none` models an absent key. -/
structure Job where
  title : Option String
  description : Option String
  location : Option String
  employment_type : Option String
  url : Option String
  posted_at : PyTs
deriving DecidableEq, Repr

/-! ### Keyword configuration (module-level globals of src/main.py) -/

def TARGET_ROLE_KEYWORDS : List String :=
  ["software engineer", "swe", "backend engineer", "frontend engineer",
   "full stack engineer", "ml engineer", "machine learning engineer",
   "ai engineer", "data scientist", "data engineer", "security engineer",
   "application security engineer", "security analyst",
   "cybersecurity engineer", "site reliability engineer", "sre"]

def EXPERIENCE_KEYWORDS : List String :=
  ["entry level", "entry-level", "new grad", "new graduate",
   "university graduate", "recent graduate", "early career", "early-career",
   "junior", "associate", "assistant", "0-1 years", "0–1 years",
   "0 to 1 years", "0-2 years", "0–2 years", "0 to 2 years", "up to 2 years"]

def ASSOCIATE_TITLE_KEYWORDS : List String :=
  ["associate software engineer", "associate data engineer",
   "associate data scientist", "associate ml engineer",
   "associate machine learning engineer", "assistant software engineer",
   "assistant data scientist"]

def SENIOR_EXCLUDE_KEYWORDS : List String :=
  ["senior", "sr.", "sr ", "staff", "principal", "lead ", "lead-",
   "director", "manager", "head of", "architect", "vp ", "vice president"]

def US_LOCATION_KEYWORDS : List String :=
  ["united states", "u.s.", "u. s.", " us ", "(us)", " usa", "remote-us",
   "remote us", "anywhere in the us"]

def US_STATE_CODES : List String :=
  ["AL", "AK", "AZ", "AR", "CA", "CO", "CT", "DE", "FL", "GA",
   "HI", "ID", "IL", "IN", "IA", "KS", "KY", "LA", "ME", "MD",
   "MA", "MI", "MN", "MS", "MO", "MT", "NE", "NV", "NH", "NJ",
   "NM", "NY", "NC", "ND", "OH", "OK", "OR", "PA", "RI", "SC",
   "SD", "TN", "TX", "UT", "VT", "VA", "WA", "WV", "WI", "WY"]

/-! ### Filter helpers (src/main.py) -/

/-- `main.posted_within_window`: the posting's normalized timestamp exists
    and `now - posted_at <= minutes`.  `now` is the run's current UTC time
    in ms. -/
def posted_within_window (now : Int) (job : Job) (minutes : Int) : Bool :=
  match normalize_ts job.posted_at with
  | Option.none => false
  | Option.some p => decide (now - p ≤ minutes * 60000)

/-- An ASCII uppercase letter, i.e. the regex class `[A-Z]`. -/
def isUpperAZ (c : Char) : Bool := 'A' ≤ c && c ≤ 'Z'

/-- Attempt the tail of `,\s*([A-Z]{2})(?:\s|$)` right after a comma. -/
def stateAfterComma (cs : List Char) : Option (Char × Char) :=
  match cs.dropWhile isPySpace with
  | c1 :: c2 :: rest =>
    if isUpperAZ c1 && isUpperAZ c2 then
      match rest with
      | [] => Option.some (c1, c2)
      | c3 :: _ => if isPySpace c3 then Option.some (c1, c2) else Option.none
    else Option.none
  | _ => Option.none

/-- `re.search(r",\s*([A-Z]{2})(?:\s|$)", loc)`: leftmost match's group. -/
def findStateCode : List Char → Option (Char × Char)
  | [] => Option.none
  | c :: rest =>
    if c = ',' then
      match stateAfterComma rest with
      | Option.some p => Option.some p
      | Option.none => findStateCode rest
    else findStateCode rest

/-- `main.is_us_location`. -/
def is_us_location (loc : String) : Bool :=
  if loc = "" then false
  else
    let loc_l := " " ++ pyLower loc ++ " "
    if US_LOCATION_KEYWORDS.any (fun kw => strIn kw loc_l) then true
    else
      match findStateCode loc.data with
      | Option.some (c1, c2) => US_STATE_CODES.contains (String.mk [c1, c2])
      | Option.none => false

/-- `main.is_entry_or_associate` (arguments already lower-cased). -/
def is_entry_or_associate (title text : String) : Bool :=
  EXPERIENCE_KEYWORDS.any (fun exp => strIn exp text) ||
  ASSOCIATE_TITLE_KEYWORDS.any (fun k => strIn k title)

/-- `main.is_relevant_role` (arguments already lower-cased). -/
def is_relevant_role (title text : String) : Bool :=
  TARGET_ROLE_KEYWORDS.any (fun role => strIn role title) ||
  TARGET_ROLE_KEYWORDS.any (fun role => strIn role text)

/-- `main.looks_senior` (argument already lower-cased). -/
def looks_senior (title : String) : Bool :=
  SENIOR_EXCLUDE_KEYWORDS.any (fun bad => strIn bad title)

/-- Lower-cased stripped title of a job, as `job_matches` computes it. -/
def jobTitleL (job : Job) : String := pyLower (pyStrip (job.title.getD ""))

/-- The `f"{title_l} {desc.lower()}"` text `job_matches` scans. -/
def jobTextL (job : Job) : String :=
  jobTitleL job ++ " " ++ pyLower (job.description.getD "")

/-- Lower-cased employment type, as `job_matches` computes it. -/
def jobEmpL (job : Job) : String := pyLower (job.employment_type.getD "")

/-- `main.job_matches`: the full filter pipeline, with the source's early
    returns written as nested conditionals. -/
def job_matches (now : Int) (job : Job) : Bool :=
  if !posted_within_window now job 30 then false
  else if !is_us_location (job.location.getD "") then false
  else if strIn "intern" (jobTitleL job) || strIn "internship" (jobTitleL job)
          || jobEmpL job == "intern" then false
  else if looks_senior (jobTitleL job) then false
  else if !is_entry_or_associate (jobTitleL job) (jobTextL job) then false
  else if !is_relevant_role (jobTitleL job) (jobTextL job) then false
  else true

/-! ### MD5 (model of `hashlib.md5`, RFC 1321) used by `main.job_id` -/

/-- Truncate to a 32-bit word. -/
def w32 (n : Nat) : Nat := n % 4294967296

/-- Bitwise complement within 32 bits (operands are `< 2^32`). -/
def not32 (n : Nat) : Nat := 4294967295 - n

/-- Rotate a 32-bit word left by `s` bits. -/
def rotl32 (x s : Nat) : Nat := w32 (x * 2 ^ s) + x / 2 ^ (32 - s)

/-- The 64 MD5 sine-derived constants `K[i] = floor(|sin(i+1)| * 2^32)`. -/
def md5K : List Nat :=
  [3614090360, 3905402710, 606105819, 3250441966, 4118548399, 1200080426, 2821735955, 4249261313,
   1770035416, 2336552879, 4294925233, 2304563134, 1804603682, 4254626195, 2792965006, 1236535329,
   4129170786, 3225465664, 643717713, 3921069994, 3593408605, 38016083, 3634488961, 3889429448,
   568446438, 3275163606, 4107603335, 1163531501, 2850285829, 4243563512, 1735328473, 2368359562,
   4294588738, 2272392833, 1839030562, 4259657740, 2763975236, 1272893353, 4139469664, 3200236656,
   681279174, 3936430074, 3572445317, 76029189, 3654602809, 3873151461, 530742520, 3299628645,
   4096336452, 1126891415, 2878612391, 4237533241, 1700485571, 2399980690, 4293915773, 2240044497,
   1873313359, 4264355552, 2734768916, 1309151649, 4149444226, 3174756917, 718787259, 3951481745]

/-- The 64 MD5 per-step left-rotation amounts. -/
def md5S : List Nat :=
  [7, 12, 17, 22, 7, 12, 17, 22, 7, 12, 17, 22, 7, 12, 17, 22,
   5, 9, 14, 20, 5, 9, 14, 20, 5, 9, 14, 20, 5, 9, 14, 20,
   4, 11, 16, 23, 4, 11, 16, 23, 4, 11, 16, 23, 4, 11, 16, 23,
   6, 10, 15, 21, 6, 10, 15, 21, 6, 10, 15, 21, 6, 10, 15, 21]

/-- MD5 padding: `0x80`, zero fill to 56 mod 64, 8-byte little-endian
    bit length. -/
def md5Pad (msg : List Nat) : List Nat :=
  let lenBits := msg.length * 8 % 2 ^ 64
  let padLen := (119 - msg.length % 64) % 64
  msg ++ [0x80] ++ List.replicate padLen 0 ++
    (List.range 8).map (fun i => lenBits / 2 ^ (8 * i) % 256)

/-- Split bytes into 16-word (little-endian) blocks of 64 bytes. -/
def md5Words (bytes : List Nat) : List Nat :=
  (List.range (bytes.length / 4)).map fun i =>
    bytes.getD (4 * i) 0 + bytes.getD (4 * i + 1) 0 * 256 +
    bytes.getD (4 * i + 2) 0 * 65536 + bytes.getD (4 * i + 3) 0 * 16777216

/-- One MD5 step (step index `i`, message block `M` of 16 words). -/
def md5Step (M : List Nat) (st : Nat × Nat × Nat × Nat) (i : Nat) :
    Nat × Nat × Nat × Nat :=
  let (a, b, c, d) := st
  let fg : Nat × Nat :=
    if i < 16 then (b.land c |>.lor ((not32 b).land d), i)
    else if i < 32 then (d.land b |>.lor ((not32 d).land c), (5 * i + 1) % 16)
    else if i < 48 then (b.xor c |>.xor d, (3 * i + 5) % 16)
    else (c.xor (b.lor (not32 d)), 7 * i % 16)
  let f := w32 (fg.1 + a + md5K.getD i 0 + M.getD fg.2 0)
  (d, w32 (b + rotl32 f (md5S.getD i 0)), b, c)

/-- Process one 64-byte block (as 16 words) into the running state. -/
def md5Block (st : Nat × Nat × Nat × Nat) (M : List Nat) :
    Nat × Nat × Nat × Nat :=
  let r := (List.range 64).foldl (md5Step M) st
  (w32 (st.1 + r.1), w32 (st.2.1 + r.2.1), w32 (st.2.2.1 + r.2.2.1), w32 (st.2.2.2 + r.2.2.2))

/-- The four 32-bit state words of the MD5 digest of a byte string. -/
def md5Digest (msg : List Nat) : Nat × Nat × Nat × Nat :=
  let bytes := md5Pad msg
  let blocks := (List.range (bytes.length / 64)).map fun i =>
    md5Words ((bytes.drop (64 * i)).take 64)
  blocks.foldl md5Block (0x67452301, 0xefcdab89, 0x98badcfe, 0x10325476)

/-- Lowercase hex digit. -/
def hexDigit (n : Nat) : Char :=
  if n < 10 then Char.ofNat (48 + n) else Char.ofNat (87 + n)

/-- Two-digit lowercase hex of a byte. -/
def hexByte (n : Nat) : List Char := [hexDigit (n / 16 % 16), hexDigit (n % 16)]

/-- Little-endian hex rendering of one 32-bit state word. -/
def hexWordLE (w : Nat) : List Char :=
  hexByte (w % 256) ++ hexByte (w / 256 % 256) ++
  hexByte (w / 65536 % 256) ++ hexByte (w / 16777216 % 256)

/-- `hashlib.md5(msg).hexdigest()`. -/
def md5Hex (msg : List Nat) : String :=
  let q := md5Digest msg
  String.mk (hexWordLE q.1 ++ hexWordLE q.2.1 ++ hexWordLE q.2.2.1 ++ hexWordLE q.2.2.2)

/-! ### Identity (src/main.py `job_id`) -/

/-- The pre-hash key `f"{company}|{job.get('title','')}|{job.get('url','')}"`. -/
def jobIdBase (company : String) (job : Job) : String :=
  company ++ "|" ++ job.title.getD "" ++ "|" ++ job.url.getD ""

/-- `main.job_id`: MD5 hex digest of the UTF-8 encoded pre-hash key. -/
def job_id (company : String) (job : Job) : String :=
  md5Hex (utf8 (jobIdBase company job))

/-! ### Rendering instants (model of `datetime.isoformat` / `str`) -/

/-- Zero-padded decimal rendering. -/
def padNumList (w n : Nat) : List Char :=
  let s := (toString n).data
  List.replicate (w - s.length) '0' ++ s

/-- `datetime.isoformat()` for an instant (wall-clock ms, optional UTC
    offset ms); microseconds rendered only when non-zero, offsets as
    `±HH:MM`. -/
def isoformatDt (wall : Int) (tz : Option Int) : String :=
  let days := Int.fdiv wall 86400000
  let msDay := (wall - days * 86400000).toNat
  let ymd := civilFromDays days
  let frac := if msDay % 1000 = 0 then [] else '.' :: padNumList 6 (msDay % 1000 * 1000)
  let off : List Char :=
    match tz with
    | Option.none => []
    | Option.some o =>
      (if o < 0 then '-' else '+') ::
        (padNumList 2 (o.natAbs / 3600000) ++ ':' :: padNumList 2 (o.natAbs / 60000 % 60))
  String.mk
    (padNumList 4 ymd.1.toNat ++ '-' :: padNumList 2 ymd.2.1.toNat ++
     '-' :: padNumList 2 ymd.2.2.toNat ++ 'T' :: padNumList 2 (msDay / 3600000) ++
     ':' :: padNumList 2 (msDay / 60000 % 60) ++ ':' :: padNumList 2 (msDay / 1000 % 60) ++
     frac ++ off)

/-! ### Orchestrator (src/main.py `main`) -/

/-- The record the orchestrator builds for each newly emitted posting. -/
structure Record where
  company : String
  title : String
  location : String
  url : String
  employment_type : String
  posted_at : String
deriving DecidableEq, Repr

/-- The `record = {...}` built in `main` (the `posted_at` entry is
    `isoformat()` for a `datetime` value, otherwise `str(...)`). -/
def mkRecord (name : String) (job : Job) : Record :=
  { company := name
    title := job.title.getD ""
    location := job.location.getD ""
    url := job.url.getD ""
    employment_type := job.employment_type.getD ""
    posted_at :=
      match job.posted_at with
      | PyTs.dt w tz => isoformatDt w tz
      | PyTs.str s => s
      | PyTs.none => "None"
      | PyTs.intVal n => toString n }

/-- Membership in the `seen_ids` set (`jid in seen_ids`). -/
def seenHas (seen : List String) (jid : String) : Bool :=
  match seen with
  | [] => false
  | s :: rest => jid == s || seenHas rest jid

/-- The orchestrator's mutable run state: the `seen_ids` set and the
    accumulated `new_jobs` batch. -/
structure RunState where
  seen : List String
  new_jobs : List Record
deriving DecidableEq, Repr

/-- The body of `main`'s inner `for job in jobs` loop.  `db` is whether a
    store client exists; `writeOk jid` is whether persisting document `jid`
    succeeds (a failed write is caught: the id is not added to `seen_ids`,
    but the record is still appended). -/
def processJob (db : Bool) (writeOk : String → Bool) (now : Int)
    (name : String) (st : RunState) (job : Job) : RunState :=
  if !job_matches now job then st
  else if seenHas st.seen (job_id name job) then st
  else
    { seen := if db && writeOk (job_id name job) then job_id name job :: st.seen
              else st.seen
      new_jobs := st.new_jobs ++ [mkRecord name job] }

/-- One configured source: the employer name and the outcome of its fetch
    (the orchestrator's `try`/`except` turns any raised error into zero
    postings; an unsupported ATS likewise yields `[]`). -/
structure Source where
  name : String
  fetched : Except String (List Job)

/-- `main`'s per-company step: failed fetch means zero postings, otherwise
    run the filter/dedup loop over the fetched jobs. -/
def processCompany (db : Bool) (writeOk : String → Bool) (now : Int)
    (st : RunState) (src : Source) : RunState :=
  match src.fetched with
  | Except.error _ => st
  | Except.ok jobs => jobs.foldl (processJob db writeOk now src.name) st

/-- A whole run of `main`: start from the loaded seen snapshot and the
    empty batch, process every configured source in order. -/
def runAgent (db : Bool) (writeOk : String → Bool) (now : Int)
    (seen0 : List String) (srcs : List Source) : RunState :=
  srcs.foldl (processCompany db writeOk now) ⟨seen0, []⟩

/-! ### Adapters: normalization loops over decoded payloads -/

/-- Python `a or b` for string-or-None values (`""` and `None` are falsy). -/
def pyOr (a b : Option String) : Option String :=
  match a with
  | Option.some s => if s = "" then b else Option.some s
  | Option.none => b

/-- One element of the Greenhouse board API's `jobs` array (the fields the
    adapter reads; `location_name` is the nested `location.name`). -/
structure GhRaw where
  title : Option String
  absolute_url : Option String
  location_name : Option String
  content : Option String
  updated_at : Option String
  created_at : Option String

/-- The normalization loop of `greenhouse.fetch_greenhouse_jobs` (after a
    successful fetch): every element yields exactly one job dict, with
    empty-string defaults and `posted_at = updated_at or created_at`. -/
def greenhouse_normalize (raws : List GhRaw) : List Job :=
  raws.map fun j =>
    { title := Option.some (j.title.getD "")
      location := Option.some (j.location_name.getD "")
      description := Option.some (j.content.getD "")
      url := Option.some (j.absolute_url.getD "")
      employment_type := Option.some ""
      posted_at :=
        match pyOr j.updated_at j.created_at with
        | Option.some s => PyTs.str s
        | Option.none => PyTs.none }

/-- One element of the Ashby board API's `jobs` array. -/
structure AshbyRaw where
  jobTitle : Option String
  jobUrl : Option String
  locationName : Option String
  descriptionHtml : Option String
  descriptionPlain : Option String
  publishedAt : Option String
  employmentType : Option String

/-- The normalization loop of `ashby.fetch_ashby_jobs`: every element yields
    exactly one job dict, `posted_at` straight from `publishedAt`. -/
def ashby_normalize (raws : List AshbyRaw) : List Job :=
  raws.map fun j =>
    { title := Option.some (j.jobTitle.getD "")
      url := Option.some (j.jobUrl.getD "")
      location := Option.some (j.locationName.getD "")
      description := Option.some ((pyOr j.descriptionHtml j.descriptionPlain).getD "")
      employment_type := Option.some (pyLower (j.employmentType.getD ""))
      posted_at :=
        match j.publishedAt with
        | Option.some s => PyTs.str s
        | Option.none => PyTs.none }

/-! ### Lever adapter (src/scrapers/lever.py) -/

def KEYWORDS_FLEXIBLE : List String :=
  ["software", "swe", "developer", "engineer", "backend", "full stack",
   "full-stack", "python", "java", "ml", "machine learning", "data",
   "security", "ai", "artificial intelligence", "research engineer",
   "applied scientist"]

def USA_KEYWORDS : List String :=
  ["united states", "usa", "us", "remote - us", "remote-us"]

/-- `lever.normalize`: `text.lower().strip() if text else ""`. -/
def leverNormalize (text : String) : String :=
  if text = "" then "" else pyStrip (pyLower text)

/-- `lever.is_recent`: parse the ISO string (trailing `Z` replaced) and
    compare against the window; any parse failure is `False`. -/
def lever_is_recent (now : Int) (created_at_iso : String) (minutes : Int) : Bool :=
  match fromisoformat (String.mk (zToUtcList created_at_iso.data)) with
  | Option.some (wall, Option.some off) => decide (now - (wall - off) ≤ minutes * 60000)
  | _ => false

/-- `lever.matches_flexible_keywords`. -/
def matches_flexible_keywords (title : String) : Bool :=
  KEYWORDS_FLEXIBLE.any (fun kw => strIn kw (leverNormalize title))

/-- `lever.is_usa`. -/
def lever_is_usa (location : String) : Bool :=
  if location = "" then false
  else USA_KEYWORDS.any (fun kw => strIn kw (leverNormalize location))

/-- One element of the Lever postings API payload (the fields read);
    `categories_location` is the nested `categories.location`, `createdAt`
    is epoch milliseconds. -/
structure LeverRaw where
  text : Option String
  categories_location : Option String
  createdAt : Option Int
  id : Option String
  hostedUrl : Option String

/-- The record `lever.scrape` appends: note the timestamp key is
    `created_at` and there is no `posted_at` and no `description` key. -/
structure LeverRec where
  id : Option String
  title : String
  company : String
  location : String
  url : Option String
  created_at : String
deriving DecidableEq, Repr

/-- `datetime.utcfromtimestamp(created / 1000).isoformat() + "Z"`
    (naive UTC wall clock, then a literal `Z` appended). -/
def leverCreatedIso (createdMs : Int) : String :=
  isoformatDt createdMs Option.none ++ "Z"

/-- The processing loop of `lever.scrape` over the decoded payload: skip
    when `createdAt` is falsy (absent or zero), then apply the adapter's
    own freshness/keyword/location filters. -/
def lever_scrape (now : Int) (company : String) (data : List LeverRaw) : List LeverRec :=
  data.foldr
    (fun job acc =>
      let title := job.text.getD ""
      let location := job.categories_location.getD ""
      match job.createdAt with
      | Option.none => acc
      | Option.some created =>
        if created = 0 then acc
        else
          let created_iso := leverCreatedIso created
          if !lever_is_recent now created_iso 30 then acc
          else if !matches_flexible_keywords title then acc
          else if !lever_is_usa location then acc
          else
            { id := job.id, title := title, company := company,
              location := location, url := job.hostedUrl,
              created_at := created_iso } :: acc)
    []

/-- A Lever record as `main.job_matches` / `main.job_id` read it: `title`,
    `location`, `url` are present, `description`, `employment_type` and
    `posted_at` keys are absent. -/
def leverToJob (r : LeverRec) : Job :=
  { title := Option.some r.title
    description := Option.none
    location := Option.some r.location
    employment_type := Option.none
    url := r.url
    posted_at := PyTs.none }

/-! ### Workday adapter (src/scrapers/workday.py) -/

/-- `workday._parse_iso_datetime`: strip, rewrite a trailing `Z` (only the
    last character) to `+00:00`, try `fromisoformat`, then fall back to
    `strptime("%Y-%m-%d")` (which accepts non-zero-padded fields); failure
    is an absent value. -/
def wd_parse_iso_datetime (value : String) : Option (Int × Option Int) :=
  if value = "" then Option.none
  else
    let v := pyStrip value
    let v := if strEndsWith v "Z" then String.mk v.data.dropLast ++ "+00:00" else v
    match fromisoformat v with
    | Option.some r => Option.some r
    | Option.none =>
      match strptimeYmd v.data with
      | Option.some wall => Option.some (wall, Option.some 0)
      | Option.none => Option.none
where
  /-- `strptime(v, "%Y-%m-%d").replace(tzinfo=timezone.utc)`: 1-4 digit
      year, 1-2 digit month/day, validated. -/
  strptimeYmd (cs : List Char) : Option Int :=
    let digitsThen : List Char → Nat → Option (Nat × List Char) := fun cs maxLen =>
      let ds := cs.takeWhile (fun c => (digitVal c).isSome)
      if ds.length = 0 ∨ maxLen < ds.length then Option.none
      else Option.some (ds.foldl (fun a c => 10 * a + (digitVal c).getD 0) 0, cs.drop ds.length)
    match digitsThen cs 4 with
    | Option.some (y, '-' :: r1) =>
      (match digitsThen r1 4 with
       | Option.some (mo, '-' :: r2) =>
         (match digitsThen r2 4 with
          | Option.some (d, []) =>
            if 1 ≤ y ∧ 1 ≤ mo ∧ mo ≤ 12 ∧ 1 ≤ d ∧ (d : Int) ≤ daysInMonth y mo
            then Option.some (msOfCivil y mo d 0 0 0)
            else Option.none
          | _ => Option.none)
       | _ => Option.none)
    | _ => Option.none

/-- `workday._is_recent` on the model of a parsed posting datetime.
    (A timezone-naive parse makes the Python comparison raise `TypeError`;
    that path is compared on the wall clock here and is exercised by no
    claim.) -/
def wd_is_recent (now : Int) : Option (Int × Option Int) → Bool
  | Option.none => false
  | Option.some (wall, off) => decide (now - (wall - off.getD 0) ≤ 30 * 60000)

/-- A raw `posted_raw` value: an ISO-ish string or a small dict. -/
inductive WdPosted where
  | s (v : String) : WdPosted
  | obj (value date iso8601 : Option String) : WdPosted

/-- Python truthiness of a `posted_raw` candidate (empty string and empty
    dict are falsy; dict keys beyond the three read ones are not modelled). -/
def wdFalsy : WdPosted → Bool
  | WdPosted.s v => v = ""
  | WdPosted.obj a b c => a.isNone && b.isNone && c.isNone

/-- `a or b` over optional `posted_raw` candidates. -/
def pyOrW (a b : Option WdPosted) : Option WdPosted :=
  match a with
  | Option.some v => if wdFalsy v then b else Option.some v
  | Option.none => b

/-- One element of the Workday `jobPostings` payload (the fields read). -/
structure WdRaw where
  title : Option String
  titlePlainText : Option String
  locationsText : Option String
  locations : Option (List String)
  externalPath : Option String
  externalUrl : Option String
  jobPostingExternalUrl : Option String
  postedOn : Option WdPosted
  postedDate : Option WdPosted
  startDate : Option WdPosted
  postedOnDate : Option WdPosted

/-- `careers_url.split("?", 1)[0].rstrip("/")`. -/
def wdBaseUrl (careers_url : String) : String :=
  String.mk (((careers_url.data.takeWhile (· ≠ '?')).reverse.dropWhile (· = '/')).reverse)

/-- The posting loop of `workday._workday_search` over a decoded payload:
    skip untitled postings, assemble location and url, parse the posting
    date from the `or`-chain of candidates, and keep only "recent" ones
    (which in particular drops every posting whose timestamp is absent or
    unparseable).  The source also stores `company` inside each produced
    dict; the orchestrator never reads that key, so the model keeps the
    parameter but the `Job` record has no slot for it. -/
def workday_search (now : Int) (_company careers_url : String)
    (postings : List WdRaw) : List Job :=
  if !strIn "myworkdayjobs.com" careers_url then []
  else
    postings.foldr
      (fun p acc =>
        let title := (pyOr p.title p.titlePlainText).getD ""
        if title = "" then acc
        else
          let location :=
            match p.locationsText with
            | Option.some s => s
            | Option.none =>
              match p.locations with
              | Option.some (x :: xs) => String.intercalate ", " (x :: xs)
              | _ => ""
          let path := (pyOr (pyOr p.externalPath p.externalUrl) p.jobPostingExternalUrl).getD ""
          let url :=
            if path = "" then ""
            else if strStartsWith path "http" then path
            else wdBaseUrl careers_url ++ (if strStartsWith path "/" then path else "/" ++ path)
          let posted_raw := pyOrW (pyOrW (pyOrW p.postedOn p.postedDate) p.startDate) p.postedOnDate
          let posted_at :=
            match posted_raw with
            | Option.some (WdPosted.s v) => wd_parse_iso_datetime v
            | Option.some (WdPosted.obj value date iso) =>
              (match pyOr (pyOr value date) iso with
               | Option.some v => wd_parse_iso_datetime v
               | Option.none => Option.none)
            | Option.none => Option.none
          if !wd_is_recent now posted_at then acc
          else
            { title := Option.some title
              location := Option.some location
              url := Option.some (if url = "" then careers_url else url)
              description := Option.some ""
              employment_type := Option.none
              posted_at :=
                match posted_at with
                | Option.some (w, off) => PyTs.dt w off
                | Option.none => PyTs.none } :: acc)
      []

/-! ### The five filter predicates, as grouped by the pipeline -/

/-- Freshness predicate: posted within the 30-minute window. -/
def freshnessPred (now : Int) (job : Job) : Bool := posted_within_window now job 30

/-- Location predicate: US location. -/
def locationPred (job : Job) : Bool := is_us_location (job.location.getD "")

/-- Exclusion predicate: passes the internship check and the
    seniority-keyword check (both scan the lower-cased title, plus the
    employment type for `intern`). -/
def exclusionPred (job : Job) : Bool :=
  !(strIn "intern" (jobTitleL job) || strIn "internship" (jobTitleL job)
      || jobEmpL job == "intern") &&
  !looks_senior (jobTitleL job)

/-- Level/experience predicate. -/
def levelPred (job : Job) : Bool := is_entry_or_associate (jobTitleL job) (jobTextL job)

/-- Role predicate. -/
def rolePred (job : Job) : Bool := is_relevant_role (jobTitleL job) (jobTextL job)

/-- C4.  `job_matches` is exactly the conjunction of the five predicates
    (exclusion, level/experience, role, location, freshness); hence it is
    true iff every predicate individually evaluates true, and a posting
    failing any single predicate is rejected by the full pipeline. -/
theorem claim_C4_filter_conjunction (now : Int) (job : Job) :
    job_matches now job =
      (exclusionPred job && levelPred job && rolePred job &&
        locationPred job && freshnessPred now job) := by
  unfold job_matches exclusionPred levelPred rolePred locationPred freshnessPred
  cases posted_within_window now job 30 <;>
    cases is_us_location (job.location.getD "") <;>
      cases strIn "intern" (jobTitleL job) <;>
        cases strIn "internship" (jobTitleL job) <;>
          cases jobEmpL job == "intern" <;>
            cases looks_senior (jobTitleL job) <;>
              cases is_entry_or_associate (jobTitleL job) (jobTextL job) <;>
                cases is_relevant_role (jobTitleL job) (jobTextL job) <;> rfl

/-! ### C5: missing-timestamp handling of the freshness predicate -/

/-- A posting that passes every filter except that its `posted_at` is
    absent. -/
def jobNoTs : Job :=
  { title := Option.some "junior software engineer"
    description := Option.some "great team"
    location := Option.some "New York, NY"
    employment_type := Option.some ""
    url := Option.some "https://acme.example/jobs/1"
    posted_at := PyTs.none }

/-- C5 counterexample.  The claim asserts a caller-visible missing-timestamp
    policy under which a posting lacking `posted_at` passes the freshness
    predicate (`treat-as-fresh`).  The only caller-visible parameters of
    `posted_within_window` are the current time and the window size, and a
    posting lacking `posted_at` fails under the default window, under an
    astronomically large window, and at any current time — there is no
    configuration that returns true. -/
theorem claim_C5_counterexample :
    posted_within_window 1763380800000 jobNoTs 30 = false ∧
    posted_within_window 1763380800000 jobNoTs 1000000000000 = false ∧
    posted_within_window 0 jobNoTs 30 = false := by
  exact ⟨rfl, rfl, rfl⟩

/-- C5 amended.  The freshness predicate has no missing-timestamp policy
    flag: for every posting whose `posted_at` normalizes to absent, it
    returns false at every current time and window (the `reject` behavior
    is hard-coded; `treat-as-fresh` is not expressible). -/
theorem claim_C5_missing_ts_always_rejected (now minutes : Int) (job : Job)
    (h : normalize_ts job.posted_at = Option.none) :
    posted_within_window now job minutes = false := by
  unfold posted_within_window
  rw [h]

/-- C5 witness. -/
theorem claim_C5_missing_ts_always_rejected_witness :
    normalize_ts jobNoTs.posted_at = Option.none ∧
    posted_within_window 1763380800000 jobNoTs 30 = false :=
  ⟨rfl, claim_C5_missing_ts_always_rejected 1763380800000 30 jobNoTs rfl⟩

/-! ### C6: scope of the exclusion check -/

/-- A posting whose title is clean but whose description contains the
    exclusion keyword `senior`; it satisfies every filter predicate. -/
def jobSeniorDesc : Job :=
  { title := Option.some "junior software engineer"
    description := Option.some "You will work with senior engineers."
    location := Option.some "New York, NY"
    employment_type := Option.some ""
    url := Option.some "https://acme.example/jobs/2"
    posted_at := PyTs.str "2025-11-17T12:00:00Z" }

/-- C6 counterexample.  The lowercased concatenation of title and
    description of `jobSeniorDesc` contains the exclusion keyword
    `senior`, so per the claim the exclusion check must reject it; yet the
    full pipeline accepts the posting (at a run time equal to its posting
    instant): the code's exclusion check scans the title only. -/
theorem claim_C6_counterexample :
    strIn "senior"
      (pyLower (jobSeniorDesc.title.getD "" ++ " " ++ jobSeniorDesc.description.getD ""))
        = true ∧
    job_matches 1763380800000 jobSeniorDesc = true := by
  exact ⟨rfl, by decide⟩

/-- C6 amended.  The exclusion check scans the lower-cased *title* only:
    whenever the title contains a seniority exclusion keyword the pipeline
    rejects the posting; keywords occurring only in the description do not
    reject (see the counterexample). -/
theorem claim_C6_senior_title_rejected (now : Int) (job : Job)
    (h : looks_senior (jobTitleL job) = true) :
    job_matches now job = false := by
  unfold job_matches
  cases hf : posted_within_window now job 30 <;>
    cases hl : is_us_location (job.location.getD "") <;>
      cases hi : (strIn "intern" (jobTitleL job) || strIn "internship" (jobTitleL job)
        || jobEmpL job == "intern") <;>
    simp [hf, hl, hi, h]

/-- C6 witness. -/
theorem claim_C6_senior_title_rejected_witness :
    looks_senior (jobTitleL
      { title := Option.some "Senior Software Engineer"
        description := Option.some ""
        location := Option.some "New York, NY"
        employment_type := Option.some ""
        url := Option.some "https://acme.example/jobs/3"
        posted_at := PyTs.str "2025-11-17T12:00:00Z" }) = true ∧
    job_matches 1763380800000
      { title := Option.some "Senior Software Engineer"
        description := Option.some ""
        location := Option.some "New York, NY"
        employment_type := Option.some ""
        url := Option.some "https://acme.example/jobs/3"
        posted_at := PyTs.str "2025-11-17T12:00:00Z" } = false :=
  ⟨by decide, claim_C6_senior_title_rejected 1763380800000 _ (by decide)⟩

/-! ### C7: totality of the timestamp parser -/

/-- C7 counterexample.  An epoch-millisecond integer input does not yield
    the UTC instant the claim requires: `normalize_ts` maps every
    non-`datetime`, non-string input to the absent value, while the
    equivalent ISO string yields the instant. -/
theorem claim_C7_counterexample :
    normalize_ts (PyTs.intVal 1763382896000) = Option.none ∧
    normalize_ts (PyTs.str "2025-11-17T12:34:56Z") = Option.some 1763382896000 := by
  exact ⟨rfl, by decide⟩

/-- C7 amended.  `normalize_ts` is total (a Lean function, never an
    error); it maps ISO-8601 strings with or without a trailing `Z` (and
    with an explicit offset) to the correct UTC instant, date-only strings
    to midnight UTC, and unparseable or absent input to the explicit
    absent value — but epoch-millisecond *integers* are not parsed: every
    integer input maps to absent. -/
theorem claim_C7_normalize_ts_behavior :
    normalize_ts (PyTs.str "2025-11-17T12:34:56Z") = Option.some 1763382896000 ∧
    normalize_ts (PyTs.str "2025-11-17T12:34:56+00:00") = Option.some 1763382896000 ∧
    normalize_ts (PyTs.str "2025-11-17T12:34:56") = Option.some 1763382896000 ∧
    normalize_ts (PyTs.str "2025-11-17T12:34:56-05:00") = Option.some 1763400896000 ∧
    normalize_ts (PyTs.str "2025-11-17") = Option.some 1763337600000 ∧
    (∀ n : Int, normalize_ts (PyTs.intVal n) = Option.none) ∧
    normalize_ts PyTs.none = Option.none ∧
    normalize_ts (PyTs.str "not a timestamp") = Option.none ∧
    normalize_ts (PyTs.str "2025-13-01") = Option.none := by
  refine ⟨by decide, by decide, by decide, by decide, by decide,
    fun n => rfl, rfl, by decide, by decide⟩

/-! ### C10: Lever records never pass the orchestrator's filter -/

/-- Helper: a fold of the per-job loop over jobs none of which match
    leaves the run state unchanged. -/
theorem foldl_processJob_of_no_match (db : Bool) (writeOk : String → Bool)
    (now : Int) (name : String) :
    ∀ (jobs : List Job) (st : RunState),
      (∀ j ∈ jobs, job_matches now j = false) →
      jobs.foldl (processJob db writeOk now name) st = st := by
  intro jobs
  induction jobs with
  | nil => intro st _; rfl
  | cons j rest ih =>
    intro st h
    have hj : job_matches now j = false := h j (List.mem_cons_self j rest)
    have hstep : processJob db writeOk now name st j = st := by
      unfold processJob; rw [hj]; rfl
    calc (j :: rest).foldl (processJob db writeOk now name) st
        = rest.foldl (processJob db writeOk now name)
            (processJob db writeOk now name st j) := rfl
      _ = rest.foldl (processJob db writeOk now name) st := by rw [hstep]
      _ = st := ih st (fun x hx => h x (List.mem_cons_of_mem j hx))

/-- C10.  Every record built by the Lever adapter keeps its timestamp
    under `created_at` and carries no `posted_at` (and no `description`)
    key, so the orchestrator's filter — whose freshness check reads
    `posted_at` and rejects when it is absent — evaluates false on every
    Lever record; consequently a source fetched through the Lever adapter
    contributes nothing to the emission batch (the run state is unchanged
    by processing it). -/
theorem claim_C10_lever_never_matches :
    (∀ (now : Int) (r : LeverRec), job_matches now (leverToJob r) = false) ∧
    (∀ (db : Bool) (writeOk : String → Bool) (now now' : Int)
        (name company : String) (data : List LeverRaw) (st : RunState),
      processCompany db writeOk now st
        ⟨name, Except.ok ((lever_scrape now' company data).map leverToJob)⟩ = st) := by
  constructor
  · intro now r; rfl
  · intro db writeOk now now' name company data st
    exact foldl_processJob_of_no_match db writeOk now name _ st
      (fun j hj => by
        obtain ⟨r, _, hr⟩ := List.mem_map.mp hj
        rw [← hr]; rfl)

/-! ### C8: identity stability and sensitivity -/

/-- The character-list shape of the pre-hash key. -/
theorem jobIdBase_data (c : String) (j : Job) :
    (jobIdBase c j).data =
      c.data ++ '|' :: ((j.title.getD "").data ++ '|' :: (j.url.getD "").data) := by
  have hbar : ("|" : String).data = ['|'] := rfl
  simp [jobIdBase, String.data_append, hbar, List.append_assoc]

/-- The MD5 digest packed into a single natural number. -/
def md5Nat (msg : List Nat) : Nat :=
  (md5Digest msg).1 + 4294967296 * (md5Digest msg).2.1 +
    18446744073709551616 * (md5Digest msg).2.2.1 +
    79228162514264337593543950336 * (md5Digest msg).2.2.2

/-- Every component of the digest state is a 32-bit word. -/
theorem md5Digest_bounded (msg : List Nat) :
    (md5Digest msg).1 < 4294967296 ∧ (md5Digest msg).2.1 < 4294967296 ∧
    (md5Digest msg).2.2.1 < 4294967296 ∧ (md5Digest msg).2.2.2 < 4294967296 := by
  have hblock : ∀ (st : Nat × Nat × Nat × Nat) (M : List Nat),
      (md5Block st M).1 < 4294967296 ∧ (md5Block st M).2.1 < 4294967296 ∧
      (md5Block st M).2.2.1 < 4294967296 ∧ (md5Block st M).2.2.2 < 4294967296 := by
    intro st M
    refine ⟨?_, ?_, ?_, ?_⟩ <;> exact Nat.mod_lt _ (by decide)
  have H : ∀ (bl : List (List Nat)) (st : Nat × Nat × Nat × Nat),
      st.1 < 4294967296 → st.2.1 < 4294967296 → st.2.2.1 < 4294967296 →
      st.2.2.2 < 4294967296 →
      ((bl.foldl md5Block st).1 < 4294967296 ∧
       (bl.foldl md5Block st).2.1 < 4294967296 ∧
       (bl.foldl md5Block st).2.2.1 < 4294967296 ∧
       (bl.foldl md5Block st).2.2.2 < 4294967296) := by
    intro bl
    induction bl with
    | nil => intro st h1 h2 h3 h4; exact ⟨h1, h2, h3, h4⟩
    | cons b bs ih =>
      intro st _ _ _ _
      have hb := hblock st b
      exact ih (md5Block st b) hb.1 hb.2.1 hb.2.2.1 hb.2.2.2
  unfold md5Digest
  exact H _ _ (by decide) (by decide) (by decide) (by decide)

/-- The packed digest is below `2^128`. -/
theorem md5Nat_lt (msg : List Nat) :
    md5Nat msg < 340282366920938463463374607431768211456 := by
  have h := md5Digest_bounded msg
  unfold md5Nat
  omega

/-- Equal packed digests come from equal digest states. -/
theorem md5Nat_inj {m1 m2 : List Nat} (h : md5Nat m1 = md5Nat m2) :
    md5Digest m1 = md5Digest m2 := by
  have h1 := md5Digest_bounded m1
  have h2 := md5Digest_bounded m2
  unfold md5Nat at h
  have ha : (md5Digest m1).1 = (md5Digest m2).1 := by omega
  have hb : (md5Digest m1).2.1 = (md5Digest m2).2.1 := by omega
  have hc : (md5Digest m1).2.2.1 = (md5Digest m2).2.2.1 := by omega
  have hd : (md5Digest m1).2.2.2 = (md5Digest m2).2.2.2 := by omega
  exact Prod.ext ha (Prod.ext hb (Prod.ext hc hd))

/-- C8 counterexample.  The claim "changing any one of the three fields
    (with the other two held fixed) changes the identity" is false for the
    code's identity: `job_id` is the 128-bit MD5 digest of the key string,
    and infinitely many employer strings map into that finite digest space,
    so two *distinct* employers (title and url held fixed) share an
    identity. -/
theorem claim_C8_counterexample :
    ¬ ∀ (c c' : String) (j : Job), c ≠ c' → job_id c j ≠ job_id c' j := by
  intro h
  haveI : Infinite String :=
    Infinite.of_injective (fun n : Nat => String.mk (List.replicate n 'a'))
      (fun a b hab => by
        have := congrArg (fun s : String => s.data.length) hab
        simpa using this)
  obtain ⟨x, y, hxy, hf⟩ :=
    Finite.exists_ne_map_eq_of_infinite
      (fun c : String =>
        (⟨md5Nat (utf8 (jobIdBase c jobNoTs)), md5Nat_lt _⟩ :
          Fin 340282366920938463463374607431768211456))
  have hnat : md5Nat (utf8 (jobIdBase x jobNoTs)) =
      md5Nat (utf8 (jobIdBase y jobNoTs)) := congrArg Fin.val hf
  have hdig := md5Nat_inj hnat
  have hid : job_id x jobNoTs = job_id y jobNoTs := by
    unfold job_id md5Hex
    rw [hdig]
  exact h x y jobNoTs hxy hid

/-- C8 amended.  The identity is a pure deterministic function of the
    exact (employer, title, url) triple: equal triples yield equal
    identities regardless of description, location or timestamp; and
    changing any single field (the other two held fixed) changes the
    *pre-hash key string* `employer|title|url`.  (Changing a field does
    not always change the 128-bit hashed identity itself: see the
    counterexample.) -/
theorem claim_C8_identity_stability :
    (∀ (c : String) (j j' : Job), j.title.getD "" = j'.title.getD "" →
      j.url.getD "" = j'.url.getD "" → job_id c j = job_id c j') ∧
    (∀ (c c' : String) (j : Job), c ≠ c' → jobIdBase c j ≠ jobIdBase c' j) ∧
    (∀ (c : String) (j j' : Job), j.title.getD "" ≠ j'.title.getD "" →
      j.url.getD "" = j'.url.getD "" → jobIdBase c j ≠ jobIdBase c j') ∧
    (∀ (c : String) (j j' : Job), j.title.getD "" = j'.title.getD "" →
      j.url.getD "" ≠ j'.url.getD "" → jobIdBase c j ≠ jobIdBase c j') := by
  refine ⟨?_, ?_, ?_, ?_⟩
  · intro c j j' ht hu
    unfold job_id jobIdBase
    rw [ht, hu]
  · intro c c' j hne heq
    apply hne
    have hd := congrArg String.data heq
    rw [jobIdBase_data, jobIdBase_data] at hd
    have hlen := congrArg List.length hd
    simp only [List.length_append, List.length_cons] at hlen
    exact String.ext (List.append_inj hd (by omega)).1
  · intro c j j' ht hu heq
    apply ht
    have hd := congrArg String.data heq
    rw [jobIdBase_data, jobIdBase_data, hu] at hd
    have htails := List.append_cancel_left hd
    have hAB : (j.title.getD "").data ++ '|' :: (j'.url.getD "").data =
        (j'.title.getD "").data ++ '|' :: (j'.url.getD "").data := by
      injection htails
    have hlen := congrArg List.length hAB
    simp only [List.length_append, List.length_cons] at hlen
    exact String.ext (List.append_inj hAB (by omega)).1
  · intro c j j' ht hu heq
    apply hu
    have hd := congrArg String.data heq
    rw [jobIdBase_data, jobIdBase_data, ht] at hd
    have htails := List.append_cancel_left hd
    have hAB : (j'.title.getD "").data ++ '|' :: (j.url.getD "").data =
        (j'.title.getD "").data ++ '|' :: (j'.url.getD "").data := by
      injection htails
    have hu2 := List.append_cancel_left hAB
    have : (j.url.getD "").data = (j'.url.getD "").data := by
      injection hu2
    exact String.ext this

/-- `jobNoTs` with only its title changed (same url): exercises the
    title-sensitivity conjunct. -/
def jobAltTitle : Job :=
  { title := Option.some "associate software engineer"
    description := Option.some "great team"
    location := Option.some "New York, NY"
    employment_type := Option.some ""
    url := Option.some "https://acme.example/jobs/1"
    posted_at := PyTs.none }

/-- C8 witness: instances of all four conjuncts, with every hypothesis
    discharged at concrete inputs. -/
theorem claim_C8_identity_stability_witness :
    (jobNoTs.title.getD "" = jobNoTs.title.getD "" ∧
      job_id "Acme" jobNoTs = job_id "Acme" jobNoTs) ∧
    ("Acme" ≠ "Bcme" ∧ jobIdBase "Acme" jobNoTs ≠ jobIdBase "Bcme" jobNoTs) ∧
    (jobNoTs.title.getD "" ≠ jobAltTitle.title.getD "" ∧
      jobNoTs.url.getD "" = jobAltTitle.url.getD "" ∧
      jobIdBase "Acme" jobNoTs ≠ jobIdBase "Acme" jobAltTitle) ∧
    (jobNoTs.title.getD "" = jobSeniorDesc.title.getD "" ∧
      jobNoTs.url.getD "" ≠ jobSeniorDesc.url.getD "" ∧
      jobIdBase "Acme" jobNoTs ≠ jobIdBase "Acme" jobSeniorDesc) := by
  refine ⟨⟨rfl, ?_⟩, ⟨by decide, ?_⟩, ⟨by decide, rfl, ?_⟩, ⟨rfl, by decide, ?_⟩⟩
  · exact claim_C8_identity_stability.1 "Acme" jobNoTs jobNoTs rfl rfl
  · exact claim_C8_identity_stability.2.1 "Acme" "Bcme" jobNoTs (by decide)
  · exact claim_C8_identity_stability.2.2.1 "Acme" jobNoTs jobAltTitle (by decide) rfl
  · exact claim_C8_identity_stability.2.2.2 "Acme" jobNoTs jobSeniorDesc rfl (by decide)

/-! ### Orchestrator run-level lemmas -/

/-- One loop step does exactly one of: skip a non-matching job, skip an
    already-seen identity, or append the new record (updating the seen set
    per store availability/write success). -/
theorem processJob_cases (db : Bool) (w : String → Bool) (now : Int)
    (name : String) (st : RunState) (j : Job) :
    (job_matches now j = false ∧ processJob db w now name st j = st) ∨
    (job_matches now j = true ∧ seenHas st.seen (job_id name j) = true ∧
      processJob db w now name st j = st) ∨
    (job_matches now j = true ∧ seenHas st.seen (job_id name j) = false ∧
      processJob db w now name st j =
        { seen := if db && w (job_id name j) then job_id name j :: st.seen else st.seen
          new_jobs := st.new_jobs ++ [mkRecord name j] }) := by
  unfold processJob
  cases hm : job_matches now j
  · exact Or.inl ⟨rfl, rfl⟩
  · cases hs : seenHas st.seen (job_id name j)
    · exact Or.inr (Or.inr ⟨rfl, rfl, rfl⟩)
    · exact Or.inr (Or.inl ⟨rfl, rfl, rfl⟩)

/-- The batch only ever grows (single step). -/
theorem processJob_newJobs_grow (db : Bool) (w : String → Bool) (now : Int)
    (name : String) (st : RunState) (j : Job) :
    ∃ l, (processJob db w now name st j).new_jobs = st.new_jobs ++ l := by
  rcases processJob_cases db w now name st j with ⟨_, h⟩ | ⟨_, _, h⟩ | ⟨_, _, h⟩
  · exact ⟨[], by rw [h, List.append_nil]⟩
  · exact ⟨[], by rw [h, List.append_nil]⟩
  · exact ⟨[mkRecord name j], by rw [h]⟩

/-- The batch only ever grows (job loop). -/
theorem foldl_processJob_newJobs_grow (db : Bool) (w : String → Bool) (now : Int)
    (name : String) :
    ∀ (jobs : List Job) (st : RunState),
      ∃ l, (jobs.foldl (processJob db w now name) st).new_jobs = st.new_jobs ++ l := by
  intro jobs
  induction jobs with
  | nil => intro st; exact ⟨[], (List.append_nil _).symm⟩
  | cons j rest ih =>
    intro st
    obtain ⟨l1, h1⟩ := processJob_newJobs_grow db w now name st j
    obtain ⟨l2, h2⟩ := ih (processJob db w now name st j)
    exact ⟨l1 ++ l2, by rw [List.foldl_cons, h2, h1, List.append_assoc]⟩

/-- A job loop that appended nothing is a no-op on the whole state. -/
theorem foldl_processJob_of_newJobs_eq (db : Bool) (w : String → Bool) (now : Int)
    (name : String) :
    ∀ (jobs : List Job) (st : RunState),
      (jobs.foldl (processJob db w now name) st).new_jobs = st.new_jobs →
      jobs.foldl (processJob db w now name) st = st := by
  intro jobs
  induction jobs with
  | nil => intro st _; rfl
  | cons j rest ih =>
    intro st h
    rw [List.foldl_cons] at h ⊢
    rcases processJob_cases db w now name st j with ⟨_, hstep⟩ | ⟨_, _, hstep⟩ |
      ⟨_, _, hstep⟩
    · rw [hstep] at h ⊢; exact ih st h
    · rw [hstep] at h ⊢; exact ih st h
    · exfalso
      obtain ⟨l2, h2⟩ := foldl_processJob_newJobs_grow db w now name rest
        (processJob db w now name st j)
      rw [h2, hstep] at h
      -- h : st.new_jobs ++ [record] ++ l2 = st.new_jobs, impossible by length
      have := congrArg List.length h
      simp at this

/-- The seen set only ever grows (single step). -/
theorem processJob_seen_mono (db : Bool) (w : String → Bool) (now : Int)
    (name : String) (st : RunState) (j : Job) (x : String)
    (hx : seenHas st.seen x = true) :
    seenHas (processJob db w now name st j).seen x = true := by
  rcases processJob_cases db w now name st j with ⟨_, h⟩ | ⟨_, _, h⟩ | ⟨_, _, h⟩
  · rw [h]; exact hx
  · rw [h]; exact hx
  · rw [h]
    cases db && w (job_id name j)
    · exact hx
    · show (x == job_id name j || seenHas st.seen x) = true
      rw [hx, Bool.or_true]

/-- The seen set only ever grows (job loop). -/
theorem foldl_processJob_seen_mono (db : Bool) (w : String → Bool) (now : Int)
    (name : String) :
    ∀ (jobs : List Job) (st : RunState) (x : String),
      seenHas st.seen x = true →
      seenHas ((jobs.foldl (processJob db w now name)) st).seen x = true := by
  intro jobs
  induction jobs with
  | nil => intro st x hx; exact hx
  | cons j rest ih =>
    intro st x hx
    exact ih _ x (processJob_seen_mono db w now name st j x hx)

/-- The seen set only ever grows (source loop). -/
theorem foldl_processCompany_seen_mono (db : Bool) (w : String → Bool) (now : Int) :
    ∀ (srcs : List Source) (st : RunState) (x : String),
      seenHas st.seen x = true →
      seenHas ((srcs.foldl (processCompany db w now)) st).seen x = true := by
  intro srcs
  induction srcs with
  | nil => intro st x hx; exact hx
  | cons src rest ih =>
    intro st x hx
    apply ih
    unfold processCompany
    cases src.fetched with
    | error e => exact hx
    | ok jobs => exact foldl_processJob_seen_mono db w now src.name jobs st x hx

/-- With the store present and all writes succeeding, the identity of
    every matching job of the loop ends up in the seen set. -/
theorem foldl_processJob_matched_seen (now : Int) (name : String) :
    ∀ (jobs : List Job) (st : RunState) (j : Job), j ∈ jobs →
      job_matches now j = true →
      seenHas (List.foldl (processJob true (fun _ => true) now name) st jobs).seen
        (job_id name j) = true := by
  intro jobs
  induction jobs with
  | nil => intro st j hj; exact absurd hj (List.not_mem_nil j)
  | cons j0 rest ih =>
    intro st j hj hm
    rw [List.foldl_cons]
    rcases List.mem_cons.mp hj with rfl | hmem
    · -- the head job: after its own step its id is seen, then monotone
      have hx : seenHas (processJob true (fun _ => true) now name st j).seen
          (job_id name j) = true := by
        rcases processJob_cases true (fun _ => true) now name st j with ⟨hm', _⟩ |
          ⟨_, hs, h⟩ | ⟨_, _, h⟩
        · rw [hm] at hm'; exact absurd hm' (by simp)
        · rw [h]; exact hs
        · rw [h]
          show (job_id name j == job_id name j || seenHas st.seen (job_id name j)) = true
          rw [beq_self_eq_true]
          rfl
      exact foldl_processJob_seen_mono true (fun _ => true) now name rest _ _ hx
    · exact ih _ j hmem hm

/-- A job loop over jobs whose matching identities are all already seen is
    a no-op. -/
theorem foldl_processJob_all_seen (db : Bool) (w : String → Bool) (now : Int)
    (name : String) :
    ∀ (jobs : List Job) (st : RunState),
      (∀ j ∈ jobs, job_matches now j = true → seenHas st.seen (job_id name j) = true) →
      jobs.foldl (processJob db w now name) st = st := by
  intro jobs
  induction jobs with
  | nil => intro st _; rfl
  | cons j rest ih =>
    intro st h
    rw [List.foldl_cons]
    have hstep : processJob db w now name st j = st := by
      rcases processJob_cases db w now name st j with ⟨_, hst⟩ | ⟨_, _, hst⟩ |
        ⟨hm, hs, _⟩
      · exact hst
      · exact hst
      · rw [h j (List.mem_cons_self j rest) hm] at hs
        exact absurd hs (by simp)
    rw [hstep]
    exact ih st (fun x hx => h x (List.mem_cons_of_mem j hx))

/-- The batch only ever grows (per company). -/
theorem processCompany_newJobs_grow (db : Bool) (w : String → Bool) (now : Int)
    (st : RunState) (src : Source) :
    ∃ l, (processCompany db w now st src).new_jobs = st.new_jobs ++ l := by
  unfold processCompany
  cases src.fetched with
  | error e => exact ⟨[], (List.append_nil _).symm⟩
  | ok jobs => exact foldl_processJob_newJobs_grow db w now src.name jobs st

/-- A company step that appended nothing is a no-op on the whole state. -/
theorem processCompany_of_newJobs_eq (db : Bool) (w : String → Bool) (now : Int)
    (st : RunState) (src : Source)
    (h : (processCompany db w now st src).new_jobs = st.new_jobs) :
    processCompany db w now st src = st := by
  unfold processCompany at h ⊢
  cases hfet : src.fetched with
  | error e => rfl
  | ok jobs =>
    rw [hfet] at h
    exact foldl_processJob_of_newJobs_eq db w now src.name jobs st h

/-- With the store present and all writes succeeding, the identity of
    every matching job fetched by any source ends up in the final seen
    set. -/
theorem foldl_processCompany_matched_seen (now : Int) :
    ∀ (srcs : List Source) (st : RunState) (src : Source) (jobs : List Job)
      (j : Job), src ∈ srcs → src.fetched = Except.ok jobs → j ∈ jobs →
      job_matches now j = true →
      seenHas (List.foldl (processCompany true (fun _ => true) now) st srcs).seen
        (job_id src.name j) = true := by
  intro srcs
  induction srcs with
  | nil => intro st src jobs j hsrc; exact absurd hsrc (List.not_mem_nil src)
  | cons s0 rest ih =>
    intro st src jobs j hsrc hfet hj hm
    rw [List.foldl_cons]
    rcases List.mem_cons.mp hsrc with rfl | hmem
    · -- the witnessing source is the head: its own step records the id
      have hx : seenHas (processCompany true (fun _ => true) now st src).seen
          (job_id src.name j) = true := by
        unfold processCompany
        rw [hfet]
        exact foldl_processJob_matched_seen now src.name jobs st j hj hm
      exact foldl_processCompany_seen_mono true (fun _ => true) now rest _ _ hx
    · exact ih _ src jobs j hmem hfet hj hm

/-- A run whose every matching fetched job is already seen appends
    nothing and changes nothing. -/
theorem foldl_processCompany_all_seen (db : Bool) (w : String → Bool) (now : Int) :
    ∀ (srcs : List Source) (st : RunState),
      (∀ src ∈ srcs, ∀ jobs, src.fetched = Except.ok jobs →
        ∀ j ∈ jobs, job_matches now j = true →
          seenHas st.seen (job_id src.name j) = true) →
      List.foldl (processCompany db w now) st srcs = st := by
  intro srcs
  induction srcs with
  | nil => intro st _; rfl
  | cons s0 rest ih =>
    intro st h
    rw [List.foldl_cons]
    have hstep : processCompany db w now st s0 = st := by
      unfold processCompany
      cases hfet : s0.fetched with
      | error e => rfl
      | ok jobs =>
        exact foldl_processJob_all_seen db w now s0.name jobs st
          (h s0 (List.mem_cons_self s0 rest) jobs hfet)
    rw [hstep]
    exact ih st (fun src hsrc => h src (List.mem_cons_of_mem s0 hsrc))

/-- If some job of the loop matches and its identity is unseen — or the
    batch is already non-empty — the batch ends non-empty. -/
theorem foldl_processJob_nonempty (db : Bool) (w : String → Bool) (now : Int)
    (name : String) :
    ∀ (jobs : List Job) (st : RunState),
      ((∃ j ∈ jobs, job_matches now j = true ∧
          seenHas st.seen (job_id name j) = false) ∨ st.new_jobs ≠ []) →
      (List.foldl (processJob db w now name) st jobs).new_jobs ≠ [] := by
  intro jobs
  induction jobs with
  | nil =>
    intro st h
    rcases h with ⟨j, hj, _⟩ | hne
    · exact absurd hj (List.not_mem_nil j)
    · exact hne
  | cons j0 rest ih =>
    intro st h
    rw [List.foldl_cons]
    rcases h with ⟨j, hj, hm, hs⟩ | hne
    · rcases List.mem_cons.mp hj with rfl | hmem
      · -- the witness is the head: it gets appended
        rcases processJob_cases db w now name st j with ⟨hm', _⟩ | ⟨_, hs', _⟩ |
          ⟨_, _, hstep⟩
        · rw [hm] at hm'; exact absurd hm' (by simp)
        · rw [hs] at hs'; exact absurd hs' (by simp)
        · apply ih
          right
          rw [hstep]
          simp
      · -- the witness is later: the head step either keeps the state or
        -- already makes the batch non-empty
        rcases processJob_cases db w now name st j0 with ⟨_, hstep⟩ | ⟨_, _, hstep⟩ |
          ⟨_, _, hstep⟩
        · rw [hstep]; exact ih st (Or.inl ⟨j, hmem, hm, hs⟩)
        · rw [hstep]; exact ih st (Or.inl ⟨j, hmem, hm, hs⟩)
        · apply ih
          right
          rw [hstep]
          simp
    · apply ih
      right
      obtain ⟨l, hl⟩ := processJob_newJobs_grow db w now name st j0
      rw [hl]
      intro hcontra
      rcases List.append_eq_nil.mp hcontra with ⟨h1, _⟩
      exact hne h1

/-- Source-level version of the previous lemma. -/
theorem foldl_processCompany_nonempty (db : Bool) (w : String → Bool) (now : Int) :
    ∀ (srcs : List Source) (st : RunState),
      ((∃ src ∈ srcs, ∃ jobs, src.fetched = Except.ok jobs ∧
          ∃ j ∈ jobs, job_matches now j = true ∧
            seenHas st.seen (job_id src.name j) = false) ∨ st.new_jobs ≠ []) →
      (List.foldl (processCompany db w now) st srcs).new_jobs ≠ [] := by
  intro srcs
  induction srcs with
  | nil =>
    intro st h
    rcases h with ⟨src, hsrc, _⟩ | hne
    · exact absurd hsrc (List.not_mem_nil src)
    · exact hne
  | cons s0 rest ih =>
    intro st h
    rw [List.foldl_cons]
    rcases h with ⟨src, hsrc, jobs, hfet, hwit⟩ | hne
    · rcases List.mem_cons.mp hsrc with rfl | hmem
      · -- the witnessing source is the head
        apply ih
        right
        have : (processCompany db w now st src).new_jobs ≠ [] := by
          unfold processCompany
          rw [hfet]
          exact foldl_processJob_nonempty db w now src.name jobs st (Or.inl hwit)
        exact this
      · -- the witnessing source is later
        by_cases hsame : (processCompany db w now st s0).new_jobs = st.new_jobs
        · rw [processCompany_of_newJobs_eq db w now st s0 hsame]
          exact ih st (Or.inl ⟨src, hmem, jobs, hfet, hwit⟩)
        · apply ih
          right
          obtain ⟨l, hl⟩ := processCompany_newJobs_grow db w now st s0
          intro hcontra
          rw [hl] at hcontra hsame
          rcases List.append_eq_nil.mp hcontra with ⟨h1, h2⟩
          rw [h2, List.append_nil] at hsame
          exact hsame rfl
    · apply ih
      right
      obtain ⟨l, hl⟩ := processCompany_newJobs_grow db w now st s0
      rw [hl]
      intro hcontra
      rcases List.append_eq_nil.mp hcontra with ⟨h1, _⟩
      exact hne h1

/-! ### C1: idempotence across runs -/

/-- C1.  With the seen store present and every write succeeding, and given
    at least one fetched posting that matches the filter and is not yet in
    the loaded seen set, run 1 emits a non-empty batch; run 2 — same
    sources, same time, starting from run 1's persisted seen set — emits
    the empty batch: every emitted posting's identity was recorded in the
    seen set during run 1. -/
theorem claim_C1_idempotence (now : Int) (seen0 : List String) (srcs : List Source)
    (h : ∃ src ∈ srcs, ∃ jobs, src.fetched = Except.ok jobs ∧
      ∃ j ∈ jobs, job_matches now j = true ∧
        seenHas seen0 (job_id src.name j) = false) :
    (runAgent true (fun _ => true) now seen0 srcs).new_jobs ≠ [] ∧
    (runAgent true (fun _ => true) now
      (runAgent true (fun _ => true) now seen0 srcs).seen srcs).new_jobs = [] := by
  constructor
  · unfold runAgent
    exact foldl_processCompany_nonempty true (fun _ => true) now srcs ⟨seen0, []⟩
      (Or.inl h)
  · unfold runAgent
    have hall : List.foldl (processCompany true (fun _ => true) now)
        (⟨(List.foldl (processCompany true (fun _ => true) now) ⟨seen0, []⟩ srcs).seen,
          []⟩ : RunState) srcs =
        ⟨(List.foldl (processCompany true (fun _ => true) now) ⟨seen0, []⟩ srcs).seen,
          []⟩ := by
      apply foldl_processCompany_all_seen
      intro src hsrc jobs hfet j hj hm
      exact foldl_processCompany_matched_seen now srcs ⟨seen0, []⟩ src jobs j
        hsrc hfet hj hm
    rw [hall]

/-- C1 witness: one source returning one fresh, matching, unseen posting. -/
theorem claim_C1_idempotence_witness :
    (∃ src ∈ [(⟨"Acme", Except.ok [jobSeniorDesc]⟩ : Source)], ∃ jobs,
      src.fetched = Except.ok jobs ∧ ∃ j ∈ jobs,
        job_matches 1763380800000 j = true ∧
          seenHas [] (job_id src.name j) = false) ∧
    (runAgent true (fun _ => true) 1763380800000 []
      [⟨"Acme", Except.ok [jobSeniorDesc]⟩]).new_jobs ≠ [] ∧
    (runAgent true (fun _ => true) 1763380800000
      (runAgent true (fun _ => true) 1763380800000 []
        [⟨"Acme", Except.ok [jobSeniorDesc]⟩]).seen
      [⟨"Acme", Except.ok [jobSeniorDesc]⟩]).new_jobs = [] := by
  have hwit : ∃ src ∈ [(⟨"Acme", Except.ok [jobSeniorDesc]⟩ : Source)], ∃ jobs,
      src.fetched = Except.ok jobs ∧ ∃ j ∈ jobs,
        job_matches 1763380800000 j = true ∧
          seenHas [] (job_id src.name j) = false :=
    ⟨⟨"Acme", Except.ok [jobSeniorDesc]⟩, List.mem_cons_self _ _,
      [jobSeniorDesc], rfl, jobSeniorDesc, List.mem_cons_self _ _, by decide, rfl⟩
  exact ⟨hwit,
    (claim_C1_idempotence 1763380800000 [] [⟨"Acme", Except.ok [jobSeniorDesc]⟩] hwit).1,
    (claim_C1_idempotence 1763380800000 [] [⟨"Acme", Except.ok [jobSeniorDesc]⟩] hwit).2⟩

/-! ### C2: dedup when the store is unavailable -/

/-- All filter-matching fetched postings of a run, as records, in run
    order (failed fetches contribute nothing). -/
def matchingRecords (now : Int) (srcs : List Source) : List Record :=
  srcs.foldr
    (fun src acc =>
      (match src.fetched with
       | Except.ok jobs => (jobs.filter (fun j => job_matches now j)).map (mkRecord src.name)
       | Except.error _ => []) ++ acc)
    []

/-- The job loop when the store is absent and the seen set is empty: the
    seen set stays empty and every matching job is appended. -/
theorem foldl_processJob_no_store (w : String → Bool) (now : Int) (name : String) :
    ∀ (jobs : List Job) (st : RunState), st.seen = [] →
      List.foldl (processJob false w now name) st jobs =
        ⟨[], st.new_jobs ++ (jobs.filter (fun j => job_matches now j)).map (mkRecord name)⟩ := by
  intro jobs
  induction jobs with
  | nil =>
    intro st hseen
    cases st with
    | mk seen new_jobs =>
      simp only at hseen
      rw [hseen]
      simp
  | cons j0 rest ih =>
    intro st hseen
    rw [List.foldl_cons]
    cases hm : job_matches now j0
    · have hstep : processJob false w now name st j0 = st := by
        unfold processJob
        rw [hm]
        rfl
      rw [hstep, ih st hseen, List.filter_cons_of_neg (by simp [hm])]
    · have hsH : seenHas st.seen (job_id name j0) = false := by rw [hseen]; rfl
      have hstep : processJob false w now name st j0 =
          ⟨st.seen, st.new_jobs ++ [mkRecord name j0]⟩ := by
        unfold processJob
        rw [hm, hsH]
        rfl
      rw [hstep, ih ⟨st.seen, st.new_jobs ++ [mkRecord name j0]⟩ hseen,
        List.filter_cons_of_pos (by simp [hm])]
      simp

/-- The company loop when the store is absent and the seen set is empty. -/
theorem foldl_processCompany_no_store (w : String → Bool) (now : Int) :
    ∀ (srcs : List Source) (st : RunState), st.seen = [] →
      List.foldl (processCompany false w now) st srcs =
        ⟨[], st.new_jobs ++ matchingRecords now srcs⟩ := by
  intro srcs
  induction srcs with
  | nil =>
    intro st hseen
    cases st with
    | mk seen new_jobs =>
      simp only at hseen
      rw [hseen]
      simp [matchingRecords]
  | cons s0 rest ih =>
    intro st hseen
    rw [List.foldl_cons]
    have hmr : matchingRecords now (s0 :: rest) =
        (match s0.fetched with
         | Except.ok jobs =>
           (jobs.filter (fun j => job_matches now j)).map (mkRecord s0.name)
         | Except.error _ => []) ++ matchingRecords now rest := rfl
    cases hfet : s0.fetched with
    | error e =>
      have hstep : processCompany false w now st s0 = st := by
        unfold processCompany; rw [hfet]
      rw [hstep, ih st hseen, hmr, hfet]
      simp
    | ok jobs =>
      have hstep : processCompany false w now st s0 =
          ⟨[], st.new_jobs ++ (jobs.filter (fun j => job_matches now j)).map (mkRecord s0.name)⟩ := by
        unfold processCompany
        rw [hfet]
        exact foldl_processJob_no_store w now s0.name jobs st hseen
      rw [hstep, ih _ rfl, hmr, hfet]
      simp [List.append_assoc]

/-- C2 counterexample.  With the store unavailable, two fetched postings
    with equal (employer, title, url) — here literally the same posting
    twice — are **both** emitted: the run batch holds two records for one
    identity, because without a store client the run never adds newly
    emitted identities to its in-memory seen set. -/
theorem claim_C2_counterexample :
    (runAgent false (fun _ => true) 1763380800000 []
      [⟨"Acme", Except.ok [jobSeniorDesc, jobSeniorDesc]⟩]).new_jobs =
      [mkRecord "Acme" jobSeniorDesc, mkRecord "Acme" jobSeniorDesc] := by
  decide

/-- C2 amended.  With the store unavailable the run still completes, but
    dedup degrades to the loaded snapshot only — which is the empty set —
    and the in-memory seen set is never extended during the run: the
    emitted batch is exactly every filter-matching fetched posting in run
    order, duplicate identities included.  (At-most-once emission per
    identity within a run holds only when a store client exists and its
    writes succeed, cf. C1.) -/
theorem claim_C2_no_store_batch (w : String → Bool) (now : Int) (srcs : List Source) :
    runAgent false w now [] srcs = ⟨[], matchingRecords now srcs⟩ := by
  unfold runAgent
  have := foldl_processCompany_no_store w now srcs ⟨[], []⟩ rfl
  rw [this]
  simp

/-! ### C3: source isolation -/

/-- C3.  A failed fetch contributes zero postings and does not disturb the
    processing of the other sources: a run equals the run over its
    successfully fetched sources only; in particular if every source
    fails, the run still produces a valid, empty batch. -/
theorem claim_C3_source_isolation :
    (∀ (db : Bool) (w : String → Bool) (now : Int) (st : RunState)
        (srcs : List Source),
      List.foldl (processCompany db w now) st srcs =
        List.foldl (processCompany db w now) st
          (srcs.filter (fun s => s.fetched.isOk))) ∧
    (∀ (db : Bool) (w : String → Bool) (now : Int) (seen0 : List String)
        (srcs : List Source),
      (∀ src ∈ srcs, src.fetched.isOk = false) →
      (runAgent db w now seen0 srcs).new_jobs = []) := by
  have hfilter : ∀ (db : Bool) (w : String → Bool) (now : Int) (st : RunState)
      (srcs : List Source),
      List.foldl (processCompany db w now) st srcs =
        List.foldl (processCompany db w now) st
          (srcs.filter (fun s => s.fetched.isOk)) := by
    intro db w now st srcs
    induction srcs generalizing st with
    | nil => rfl
    | cons s0 rest ih =>
      rw [List.foldl_cons, List.filter_cons]
      cases hfet : s0.fetched with
      | error e =>
        have hstep : processCompany db w now st s0 = st := by
          unfold processCompany; rw [hfet]
        rw [hstep]
        exact ih st
      | ok jobs =>
        exact ih (processCompany db w now st s0)
  refine ⟨hfilter, ?_⟩
  intro db w now seen0 srcs h
  unfold runAgent
  rw [hfilter db w now ⟨seen0, []⟩ srcs]
  have : srcs.filter (fun s => s.fetched.isOk) = [] := by
    rw [List.filter_eq_nil_iff]
    intro src hsrc
    rw [h src hsrc]
    simp
  rw [this]
  rfl

/-- C3 witness: a failing source plus a healthy one — the run equals the
    run over the healthy source alone (whose matching posting is emitted),
    and a run whose every source fails yields the empty batch. -/
theorem claim_C3_source_isolation_witness :
    (List.foldl (processCompany true (fun _ => true) 1763380800000) ⟨[], []⟩
        [⟨"Dead", Except.error "connection refused"⟩,
         ⟨"Acme", Except.ok [jobSeniorDesc]⟩] =
      List.foldl (processCompany true (fun _ => true) 1763380800000) ⟨[], []⟩
        ([⟨"Dead", Except.error "connection refused"⟩,
          ⟨"Acme", Except.ok [jobSeniorDesc]⟩].filter (fun s => s.fetched.isOk))) ∧
    ((∀ src ∈ [(⟨"Dead", Except.error "connection refused"⟩ : Source)],
        src.fetched.isOk = false) ∧
      (runAgent true (fun _ => true) 1763380800000 []
        [⟨"Dead", Except.error "connection refused"⟩]).new_jobs = []) ∧
    (runAgent true (fun _ => true) 1763380800000 []
      [⟨"Dead", Except.error "connection refused"⟩,
       ⟨"Acme", Except.ok [jobSeniorDesc]⟩]).new_jobs =
      [mkRecord "Acme" jobSeniorDesc] := by
  refine ⟨claim_C3_source_isolation.1 true (fun _ => true) 1763380800000 ⟨[], []⟩ _,
    ⟨?_, claim_C3_source_isolation.2 true (fun _ => true) 1763380800000 [] _ ?_⟩, ?_⟩
  · intro src hsrc
    rcases List.mem_singleton.mp hsrc with rfl
    rfl
  · intro src hsrc
    rcases List.mem_singleton.mp hsrc with rfl
    rfl
  · decide

/-! ### C9: adapter tolerance of missing fields -/

/-- A Lever raw posting with no `createdAt` but all other fields present. -/
def leverRawMissing : LeverRaw :=
  { text := Option.some "Software Engineer"
    categories_location := Option.some "United States"
    createdAt := Option.none
    id := Option.some "1"
    hostedUrl := Option.some "https://jobs.lever.co/acme/1" }

/-- C9 counterexample.  The claim requires every adapter to return a
    posting with an absent timestamp (with the timestamp explicitly
    absent) rather than dropping it; the Lever adapter *drops* a raw
    posting whose `createdAt` is missing (`if not created: continue`). -/
theorem claim_C9_counterexample :
    lever_scrape 1763380800000 "Acme" [leverRawMissing] = [] := rfl

/-- A Greenhouse raw posting with every field absent. -/
def ghRawMissing : GhRaw :=
  { title := Option.none, absolute_url := Option.none, location_name := Option.none
    content := Option.none, updated_at := Option.none, created_at := Option.none }

/-- An Ashby raw posting with every field absent. -/
def ashbyRawMissing : AshbyRaw :=
  { jobTitle := Option.none, jobUrl := Option.none, locationName := Option.none
    descriptionHtml := Option.none, descriptionPlain := Option.none
    publishedAt := Option.none, employmentType := Option.none }

/-- A Workday raw posting with a title but no posting-date field. -/
def wdRawMissing : WdRaw :=
  { title := Option.some "Software Engineer", titlePlainText := Option.none
    locationsText := Option.none, locations := Option.none
    externalPath := Option.some "/job/1", externalUrl := Option.none
    jobPostingExternalUrl := Option.none, postedOn := Option.none
    postedDate := Option.none, startDate := Option.none, postedOnDate := Option.none }

/-- C9 amended.  The Greenhouse and Ashby adapters return one canonical
    posting per raw posting, substituting explicit empty/absent values for
    missing location, description and timestamp (in particular a posting
    with absent timestamps is still returned, with `posted_at` absent);
    but the Lever adapter drops any raw posting whose `createdAt` is
    absent, and the Workday adapter drops any posting whose timestamp
    candidates are all absent. -/
theorem claim_C9_adapter_field_defaults :
    (∀ raws : List GhRaw, (greenhouse_normalize raws).length = raws.length) ∧
    (∀ j : GhRaw, j.updated_at = Option.none → j.created_at = Option.none →
      greenhouse_normalize [j] =
        [{ title := Option.some (j.title.getD "")
           description := Option.some (j.content.getD "")
           location := Option.some (j.location_name.getD "")
           employment_type := Option.some ""
           url := Option.some (j.absolute_url.getD "")
           posted_at := PyTs.none }]) ∧
    (∀ raws : List AshbyRaw, (ashby_normalize raws).length = raws.length) ∧
    (∀ j : AshbyRaw, j.publishedAt = Option.none →
      ashby_normalize [j] =
        [{ title := Option.some (j.jobTitle.getD "")
           description := Option.some ((pyOr j.descriptionHtml j.descriptionPlain).getD "")
           location := Option.some (j.locationName.getD "")
           employment_type := Option.some (pyLower (j.employmentType.getD ""))
           url := Option.some (j.jobUrl.getD "")
           posted_at := PyTs.none }]) ∧
    (∀ (now : Int) (company : String) (j : LeverRaw), j.createdAt = Option.none →
      lever_scrape now company [j] = []) ∧
    (∀ (now : Int) (company careers_url : String) (p : WdRaw),
      p.postedOn = Option.none → p.postedDate = Option.none →
      p.startDate = Option.none → p.postedOnDate = Option.none →
      workday_search now company careers_url [p] = []) := by
  refine ⟨?_, ?_, ?_, ?_, ?_, ?_⟩
  · intro raws; exact List.length_map raws _
  · intro j h1 h2
    unfold greenhouse_normalize
    rw [List.map_singleton, h1, h2]
    rfl
  · intro raws; exact List.length_map raws _
  · intro j h
    unfold ashby_normalize
    rw [List.map_singleton, h]
  · intro now company j h
    unfold lever_scrape
    rw [List.foldr_cons, List.foldr_nil, h]
  · intro now company careers_url p h1 h2 h3 h4
    unfold workday_search
    cases hm : strIn "myworkdayjobs.com" careers_url
    · rfl
    · simp only [Bool.not_true, Bool.false_eq_true, if_false,
        List.foldr_cons, List.foldr_nil]
      rw [h1, h2, h3, h4]
      by_cases ht : (pyOr p.title p.titlePlainText).getD "" = ""
      · rw [if_pos ht]
      · rw [if_neg ht]
        rfl

/-- C9 witness: all six conjuncts at concrete raw postings with the
    relevant fields absent. -/
theorem claim_C9_adapter_field_defaults_witness :
    ((greenhouse_normalize [ghRawMissing]).length = [ghRawMissing].length) ∧
    (ghRawMissing.updated_at = Option.none ∧ ghRawMissing.created_at = Option.none ∧
      greenhouse_normalize [ghRawMissing] =
        [{ title := Option.some "", description := Option.some ""
           location := Option.some "", employment_type := Option.some ""
           url := Option.some "", posted_at := PyTs.none }]) ∧
    ((ashby_normalize [ashbyRawMissing]).length = [ashbyRawMissing].length) ∧
    (ashbyRawMissing.publishedAt = Option.none ∧
      ashby_normalize [ashbyRawMissing] =
        [{ title := Option.some "", description := Option.some ""
           location := Option.some "", employment_type := Option.some ""
           url := Option.some "", posted_at := PyTs.none }]) ∧
    (leverRawMissing.createdAt = Option.none ∧
      lever_scrape 1763380800000 "Acme" [leverRawMissing] = []) ∧
    (wdRawMissing.postedOn = Option.none ∧ wdRawMissing.postedDate = Option.none ∧
      wdRawMissing.startDate = Option.none ∧ wdRawMissing.postedOnDate = Option.none ∧
      workday_search 1763380800000 "Acme"
        "https://acme.wd5.myworkdayjobs.com/en-US/AcmeCareers" [wdRawMissing] = []) := by
  refine ⟨claim_C9_adapter_field_defaults.1 [ghRawMissing],
    ⟨rfl, rfl, claim_C9_adapter_field_defaults.2.1 ghRawMissing rfl rfl⟩,
    claim_C9_adapter_field_defaults.2.2.1 [ashbyRawMissing],
    ⟨rfl, claim_C9_adapter_field_defaults.2.2.2.1 ashbyRawMissing rfl⟩,
    ⟨rfl, claim_C9_adapter_field_defaults.2.2.2.2.1 1763380800000 "Acme"
      leverRawMissing rfl⟩,
    ⟨rfl, rfl, rfl, rfl, claim_C9_adapter_field_defaults.2.2.2.2.2 1763380800000
      "Acme" "https://acme.wd5.myworkdayjobs.com/en-US/AcmeCareers" wdRawMissing
      rfl rfl rfl rfl⟩⟩

end JobAlert
